import Mathlib

/-!
Verification of the limit-order escrow contract
(`contracts/limit-order/src/{contract,storage,types,error}.rs`).

The contract state (persistent key/value storage) is embedded as association
lists; addresses are abstracted as natural numbers; the external token-asset
contracts are modelled as one further ledger `tok` mapping (token, holder) to a
mathematical-integer balance, with `transfer` the external transfer primitive.
Each public operation becomes a pure function `State → Except Error α × State`:
the returned state is the storage as mutated up to the point of return, so an
error paired with the unchanged input state reflects that the source returns
the error before any storage write.  Machine `i128` values are embedded as
`Int`; the separate `_i128` variants make the overflow behaviour of the
arithmetic explicit (`none` models an arithmetic abort outside the `Error`
enumeration).
-/

abbrev Addr := Nat

inductive IntentStatus where
  | Active
  | Executed
  | Cancelled
deriving DecidableEq

structure Intent where
  id : Nat
  creator : Addr
  sell_token : Addr
  sell_amount : Int
  buy_token : Addr
  min_buy_amount : Int
  target_price : Int
  incentive : Int
  expiry : Nat
  status : IntentStatus
  executor : Option Addr
  actual_buy_amount : Option Int
deriving DecidableEq

structure Balance where
  available : Int
  locked : Int
deriving DecidableEq

/-- Price scale factor (1e7 for 7 decimal precision), `types.rs`. -/
def PRICE_SCALE : Int := 10000000

inductive Error where
  | IntentNotFound
  | IntentAlreadyExecuted
  | IntentCancelled
  | IntentExpired
  | OnlyCreatorCanCancel
  | InsufficientBalance
  | PriceConditionNotMet
  | InvalidPrice
  | InvalidAmount
  | InvalidToken
  | Unauthorized
  | IntentStillActive
  | TransferFailed
  | MinBuyAmountNotMet
deriving DecidableEq

/-- Lookup in an association list (the persistent key/value store). -/
def lookupKey {κ ν : Type} [DecidableEq κ] (k : κ) : List (κ × ν) → Option ν
  | [] => none
  | (k', v') :: rest => if k = k' then some v' else lookupKey k rest

/-- Store under a key in an association list: replace the first binding of the
key, or append a fresh binding. -/
def setKey {κ ν : Type} [DecidableEq κ] (k : κ) (v : ν) : List (κ × ν) → List (κ × ν)
  | [] => [(k, v)]
  | (k', v') :: rest => if k = k' then (k, v) :: rest else (k', v') :: setKey k v rest

/-- The whole persisted state of the contract, together with the balances held
at the external token contracts (`tok`, keyed by token × holder). -/
structure State where
  balances : List ((Addr × Addr) × Balance)
  intents : List (Nat × Intent)
  counter : Nat
  userIntents : List (Addr × List Nat)
  admin : Option Addr
  tok : List ((Addr × Addr) × Int)
deriving DecidableEq

/-- The escrow contract's own address on the token ledgers. -/
def contractAddr : Addr := 0

/-- Balance held by `holder` at the token contract `token`. -/
def tokBal (s : State) (token holder : Addr) : Int :=
  (lookupKey (token, holder) s.tok).getD 0

/-- The external token `transfer` primitive (an excluded collaborator: the
asset contract just moves `amount` between the two holders). -/
def transfer (s : State) (token from_ to_ : Addr) (amount : Int) : State :=
  let s1 : State := { s with tok := setKey (token, from_) (tokBal s token from_ - amount) s.tok }
  { s1 with tok := setKey (token, to_) (tokBal s1 token to_ + amount) s1.tok }

/-- `storage::get_next_intent_id`: read the counter and increment it. -/
def get_next_intent_id (s : State) : Nat × State :=
  (s.counter, { s with counter := s.counter + 1 })

/-- `storage::set_intent`. -/
def set_intent (s : State) (intent_id : Nat) (intent : Intent) : State :=
  { s with intents := setKey intent_id intent s.intents }

/-- `storage::get_intent`. -/
def get_intent (s : State) (intent_id : Nat) : Option Intent :=
  lookupKey intent_id s.intents

/-- `storage::get_balance`: stored balance or the zero default. -/
def get_balance (s : State) (user token : Addr) : Balance :=
  (lookupKey (user, token) s.balances).getD { available := 0, locked := 0 }

/-- `storage::set_balance`. -/
def set_balance (s : State) (user token : Addr) (balance : Balance) : State :=
  { s with balances := setKey (user, token) balance s.balances }

/-- `storage::add_user_intent`: append the id to the user's intent list. -/
def add_user_intent (s : State) (user : Addr) (intent_id : Nat) : State :=
  { s with userIntents :=
      setKey user ((lookupKey user s.userIntents).getD [] ++ [intent_id]) s.userIntents }

/-- `storage::get_user_intents`. -/
def get_user_intents (s : State) (user : Addr) : List Nat :=
  (lookupKey user s.userIntents).getD []

/-- `storage::get_admin`. -/
def get_admin (s : State) : Option Addr :=
  s.admin

/-- `LimitOrderContract::deposit`. -/
def deposit (s : State) (token : Addr) (amount : Int) (from_ : Addr) :
    Except Error Unit × State :=
  if amount ≤ 0 then (.error .InvalidAmount, s)
  else
    let s1 := transfer s token from_ contractAddr amount
    let balance := get_balance s1 from_ token
    let s2 := set_balance s1 from_ token { balance with available := balance.available + amount }
    (.ok (), s2)

/-- `LimitOrderContract::withdraw`. -/
def withdraw (s : State) (token : Addr) (amount : Int) (to_ : Addr) :
    Except Error Unit × State :=
  if amount ≤ 0 then (.error .InvalidAmount, s)
  else
    let balance := get_balance s to_ token
    if balance.available < amount then (.error .InsufficientBalance, s)
    else
      let s1 := set_balance s to_ token { balance with available := balance.available - amount }
      let s2 := transfer s1 token contractAddr to_ amount
      (.ok (), s2)

/-- `LimitOrderContract::create_intent`; `current_time` is the host ledger
timestamp `e.ledger().timestamp()`. -/
def create_intent (s : State) (creator sell_token : Addr) (sell_amount : Int)
    (buy_token : Addr) (min_buy_amount target_price incentive : Int)
    (expiry current_time : Nat) : Except Error Nat × State :=
  if sell_amount ≤ 0 ∨ min_buy_amount ≤ 0 then (.error .InvalidAmount, s)
  else if target_price ≤ 0 then (.error .InvalidPrice, s)
  else if incentive < 0 ∨ incentive > sell_amount then (.error .InvalidAmount, s)
  else if expiry ≤ current_time then (.error .IntentExpired, s)
  else
    let total_required := sell_amount + incentive
    let balance := get_balance s creator sell_token
    if balance.available < total_required then (.error .InsufficientBalance, s)
    else
      let s1 := set_balance s creator sell_token
        { available := balance.available - total_required
          locked := balance.locked + total_required }
      let idAndState := get_next_intent_id s1
      let intent_id := idAndState.1
      let s2 := idAndState.2
      let intent : Intent :=
        { id := intent_id, creator := creator, sell_token := sell_token
          sell_amount := sell_amount, buy_token := buy_token
          min_buy_amount := min_buy_amount, target_price := target_price
          incentive := incentive, expiry := expiry, status := .Active
          executor := none, actual_buy_amount := none }
      let s3 := set_intent s2 intent_id intent
      let s4 := add_user_intent s3 creator intent_id
      (.ok intent_id, s4)

/-- `LimitOrderContract::execute_intent`; Rust `i128` division truncates
toward zero, hence `Int.tdiv`. -/
def execute_intent (s : State) (intent_id : Nat) (executor : Addr)
    (buy_amount : Int) (current_time : Nat) : Except Error Unit × State :=
  match get_intent s intent_id with
  | none => (.error .IntentNotFound, s)
  | some intent =>
    if intent.status ≠ .Active then (.error .IntentAlreadyExecuted, s)
    else if intent.expiry < current_time then (.error .IntentExpired, s)
    else if buy_amount < intent.min_buy_amount then (.error .MinBuyAmountNotMet, s)
    else
      let actual_price := (buy_amount * PRICE_SCALE).tdiv intent.sell_amount
      if actual_price < intent.target_price then (.error .PriceConditionNotMet, s)
      else
        let s1 := transfer s intent.sell_token contractAddr executor intent.sell_amount
        let s2 := transfer s1 intent.buy_token executor intent.creator buy_amount
        let s3 := transfer s2 intent.sell_token contractAddr executor intent.incentive
        let creator_balance := get_balance s3 intent.creator intent.sell_token
        let s4 := set_balance s3 intent.creator intent.sell_token
          { creator_balance with
              locked := creator_balance.locked - (intent.sell_amount + intent.incentive) }
        let s5 := set_intent s4 intent_id
          { intent with status := .Executed, executor := some executor
                        actual_buy_amount := some buy_amount }
        (.ok (), s5)

/-- `LimitOrderContract::cancel_intent`. -/
def cancel_intent (s : State) (intent_id : Nat) (creator : Addr) :
    Except Error Unit × State :=
  match get_intent s intent_id with
  | none => (.error .IntentNotFound, s)
  | some intent =>
    if intent.creator ≠ creator then (.error .OnlyCreatorCanCancel, s)
    else if intent.status ≠ .Active then (.error .IntentAlreadyExecuted, s)
    else
      let balance := get_balance s creator intent.sell_token
      let total_locked := intent.sell_amount + intent.incentive
      let s1 := set_balance s creator intent.sell_token
        { available := balance.available + total_locked
          locked := balance.locked - total_locked }
      let s2 := set_intent s1 intent_id { intent with status := .Cancelled }
      (.ok (), s2)

/-- `LimitOrderContract::admin_cancel_intent`. -/
def admin_cancel_intent (s : State) (intent_id : Nat) (admin : Addr) :
    Except Error Unit × State :=
  match get_admin s with
  | none => (.error .Unauthorized, s)
  | some stored_admin =>
    if admin ≠ stored_admin then (.error .Unauthorized, s)
    else
      match get_intent s intent_id with
      | none => (.error .IntentNotFound, s)
      | some intent =>
        if intent.status ≠ .Active then (.error .IntentAlreadyExecuted, s)
        else
          let balance := get_balance s intent.creator intent.sell_token
          let total_locked := intent.sell_amount + intent.incentive
          let s1 := set_balance s intent.creator intent.sell_token
            { available := balance.available + total_locked
              locked := balance.locked - total_locked }
          let s2 := set_intent s1 intent_id { intent with status := .Cancelled }
          (.ok (), s2)

/-- Smallest `i128` value. -/
def i128Min : Int := -(2 ^ 127)

/-- Largest `i128` value. -/
def i128Max : Int := 2 ^ 127 - 1

/-- Whether a mathematical integer is representable as an `i128`. -/
def inI128 (x : Int) : Prop := i128Min ≤ x ∧ x ≤ i128Max

instance (x : Int) : Decidable (inI128 x) := by
  unfold inI128
  exact inferInstance

/-- Checked `i128` addition; `none` models the arithmetic overflow abort. -/
def checkedAdd (a b : Int) : Option Int :=
  if inI128 (a + b) then some (a + b) else none

/-- Checked `i128` subtraction; `none` models the arithmetic overflow abort. -/
def checkedSub (a b : Int) : Option Int :=
  if inI128 (a - b) then some (a - b) else none

/-- Checked `i128` multiplication; `none` models the arithmetic overflow abort. -/
def checkedMul (a b : Int) : Option Int :=
  if inI128 (a * b) then some (a * b) else none

/-- Checked `i128` truncating division; `none` models the division-by-zero
abort and the `i128::MIN / -1` overflow abort. -/
def checkedDiv (a b : Int) : Option Int :=
  if b = 0 then none
  else if inI128 (a.tdiv b) then some (a.tdiv b) else none

/-- `deposit` with the `i128` arithmetic of `balance.available + amount` made
explicit: a `none` result is an arithmetic abort, which is outside the `Error`
enumeration. -/
def deposit_i128 (s : State) (token : Addr) (amount : Int) (from_ : Addr) :
    Option (Except Error Unit × State) :=
  if amount ≤ 0 then some (.error .InvalidAmount, s)
  else
    let s1 := transfer s token from_ contractAddr amount
    let balance := get_balance s1 from_ token
    match checkedAdd balance.available amount with
    | none => none
    | some v => some (.ok (), set_balance s1 from_ token { balance with available := v })

/-- `execute_intent` with the `i128` arithmetic (`buy_amount * PRICE_SCALE`,
`sell_amount + incentive`, `locked - (sell_amount + incentive)`) made explicit:
a `none` result is an arithmetic abort, which is outside the `Error`
enumeration. -/
def execute_intent_i128 (s : State) (intent_id : Nat) (executor : Addr)
    (buy_amount : Int) (current_time : Nat) : Option (Except Error Unit × State) :=
  match get_intent s intent_id with
  | none => some (.error .IntentNotFound, s)
  | some intent =>
    if intent.status ≠ .Active then some (.error .IntentAlreadyExecuted, s)
    else if intent.expiry < current_time then some (.error .IntentExpired, s)
    else if buy_amount < intent.min_buy_amount then some (.error .MinBuyAmountNotMet, s)
    else
      match checkedMul buy_amount PRICE_SCALE with
      | none => none
      | some prod =>
        match checkedDiv prod intent.sell_amount with
        | none => none
        | some actual_price =>
        if actual_price < intent.target_price then some (.error .PriceConditionNotMet, s)
        else
          let s1 := transfer s intent.sell_token contractAddr executor intent.sell_amount
          let s2 := transfer s1 intent.buy_token executor intent.creator buy_amount
          let s3 := transfer s2 intent.sell_token contractAddr executor intent.incentive
          let creator_balance := get_balance s3 intent.creator intent.sell_token
          match checkedAdd intent.sell_amount intent.incentive with
          | none => none
          | some total =>
            match checkedSub creator_balance.locked total with
            | none => none
            | some newLocked =>
              let s4 := set_balance s3 intent.creator intent.sell_token
                { creator_balance with locked := newLocked }
              let s5 := set_intent s4 intent_id
                { intent with status := .Executed, executor := some executor
                              actual_buy_amount := some buy_amount }
              some (.ok (), s5)

/-- Contribution of one stored intent to the `locked` balance of the pair
(`user`, `token`): its `sell_amount + incentive` while it is `Active`. -/
def intentLock (user token : Addr) (p : Nat × Intent) : Int :=
  if p.2.creator = user ∧ p.2.sell_token = token ∧ p.2.status = IntentStatus.Active
  then p.2.sell_amount + p.2.incentive else 0

/-- Sum of `sell_amount + incentive` over all of `user`'s `Active` intents
selling `token`. -/
def lockedSum (s : State) (user token : Addr) : Int :=
  (s.intents.map (intentLock user token)).sum

/-- The field constraints `create_intent` validates, hence satisfied by every
stored intent. -/
def WfIntent (i : Intent) : Prop :=
  0 < i.sell_amount ∧ 0 ≤ i.incentive ∧ i.incentive ≤ i.sell_amount ∧
  0 < i.min_buy_amount ∧ 0 < i.target_price

/-- The balance-ledger invariant, strengthened with the bookkeeping facts the
induction needs: all available balances are nonnegative, every `locked` field
is the sum of `sell_amount + incentive` over the corresponding `Active`
intents, every stored intent satisfies the creation-time validations, and
every stored intent id is below the counter (so fresh ids never collide). -/
def ContractInv (s : State) : Prop :=
  (∀ user token, 0 ≤ (get_balance s user token).available) ∧
  (∀ user token, (get_balance s user token).locked = lockedSum s user token) ∧
  (∀ p ∈ s.intents, WfIntent p.2 ∧ p.1 < s.counter)

/-- States reachable from a freshly constructed contract by the public
operations, with arbitrary arguments and ledger timestamps. -/
inductive Reachable : State → Prop where
  | init (admin : Addr) :
      Reachable { balances := [], intents := [], counter := 0, userIntents := [],
                  admin := some admin, tok := [] }
  | stepDeposit (s : State) (token : Addr) (amount : Int) (from_ : Addr) :
      Reachable s → Reachable (deposit s token amount from_).2
  | stepWithdraw (s : State) (token : Addr) (amount : Int) (to_ : Addr) :
      Reachable s → Reachable (withdraw s token amount to_).2
  | stepCreate (s : State) (creator sell_token : Addr) (sell_amount : Int)
      (buy_token : Addr) (min_buy_amount target_price incentive : Int)
      (expiry current_time : Nat) :
      Reachable s →
      Reachable (create_intent s creator sell_token sell_amount buy_token
        min_buy_amount target_price incentive expiry current_time).2
  | stepExecute (s : State) (intent_id : Nat) (executor : Addr)
      (buy_amount : Int) (current_time : Nat) :
      Reachable s →
      Reachable (execute_intent s intent_id executor buy_amount current_time).2
  | stepCancel (s : State) (intent_id : Nat) (creator : Addr) :
      Reachable s → Reachable (cancel_intent s intent_id creator).2
  | stepAdminCancel (s : State) (intent_id : Nat) (admin : Addr) :
      Reachable s → Reachable (admin_cancel_intent s intent_id admin).2

/-- A concrete example intent: sell 100 of token 10 for at least 150 of token
20 at target price 1.5 (scaled), incentive 5, expiry 1000. -/
def exIntent : Intent :=
  { id := 0, creator := 1, sell_token := 10, sell_amount := 100, buy_token := 20
    min_buy_amount := 150, target_price := 15000000, incentive := 5, expiry := 1000
    status := .Active, executor := none, actual_buy_amount := none }

/-- A concrete example state holding `exIntent` with its 105 units locked. -/
def exState : State :=
  { balances := [((1, 10), { available := 0, locked := 105 })]
    intents := [(0, exIntent)]
    counter := 1
    userIntents := [(1, [0])]
    admin := some 9
    tok := [((10, contractAddr), 105), ((20, 2), 160)] }

/-- A concrete intent with tiny amounts, used to exercise the overflow of
`buy_amount * PRICE_SCALE`. -/
def ovIntent : Intent :=
  { id := 0, creator := 1, sell_token := 10, sell_amount := 1, buy_token := 20
    min_buy_amount := 1, target_price := 1, incentive := 0, expiry := 1000
    status := .Active, executor := none, actual_buy_amount := none }

/-- A concrete state holding `ovIntent`. -/
def ovState : State :=
  { balances := [((1, 10), { available := 0, locked := 1 })]
    intents := [(0, ovIntent)]
    counter := 1
    userIntents := [(1, [0])]
    admin := some 9
    tok := [] }

/-- A concrete intent whose `min_buy_amount` (100) is low enough that a
`buy_amount` can meet it while still missing the target price. -/
def c4Intent : Intent :=
  { id := 0, creator := 1, sell_token := 10, sell_amount := 100, buy_token := 20
    min_buy_amount := 100, target_price := 15000000, incentive := 5, expiry := 1000
    status := .Active, executor := none, actual_buy_amount := none }

/-- `exState` with `c4Intent` stored instead of `exIntent`. -/
def c4State : State :=
  { exState with intents := [(0, c4Intent)] }

/-- The state of a freshly constructed contract with admin address 9. -/
def initState : State :=
  { balances := []
    intents := []
    counter := 0
    userIntents := []
    admin := some 9
    tok := [] }

/-- A concrete state with no intents and user 1 holding 100 available units of
token 10 in the vault. -/
def freshState : State :=
  { balances := [((1, 10), { available := 100, locked := 0 })]
    intents := []
    counter := 0
    userIntents := []
    admin := some 9
    tok := [((10, contractAddr), 100)] }

theorem lookupKey_setKey_self {κ ν : Type} [DecidableEq κ] (k : κ) (v : ν)
    (l : List (κ × ν)) : lookupKey k (setKey k v l) = some v := by
  induction l with
  | nil => simp [setKey, lookupKey]
  | cons p rest ih =>
    by_cases h : k = p.1 <;> simp [setKey, lookupKey, h, ih]

theorem lookupKey_setKey_ne {κ ν : Type} [DecidableEq κ] {k k' : κ} (v : ν)
    (l : List (κ × ν)) (h : k' ≠ k) :
    lookupKey k' (setKey k v l) = lookupKey k' l := by
  induction l with
  | nil => simp [setKey, lookupKey, h]
  | cons p rest ih =>
    by_cases hk : k = p.1
    · subst hk
      simp [setKey, lookupKey, h, ih]
    · by_cases hk' : k' = p.1 <;> simp [setKey, lookupKey, hk, hk', ih]

theorem lookupKey_mem {κ ν : Type} [DecidableEq κ] {k : κ} {v : ν}
    {l : List (κ × ν)} (h : lookupKey k l = some v) : (k, v) ∈ l := by
  induction l with
  | nil => simp [lookupKey] at h
  | cons p rest ih =>
    by_cases hk : k = p.1
    · subst hk
      simp [lookupKey] at h
      subst h
      exact List.mem_cons_self _ _
    · simp [lookupKey, hk] at h
      exact List.mem_cons_of_mem _ (ih h)

theorem lookupKey_eq_none_of_forall {κ ν : Type} [DecidableEq κ] {k : κ}
    {l : List (κ × ν)} (h : ∀ p ∈ l, p.1 ≠ k) : lookupKey k l = none := by
  induction l with
  | nil => simp [lookupKey]
  | cons p rest ih =>
    have hp : p.1 ≠ k := h p (List.mem_cons_self _ _)
    have hk : k ≠ p.1 := fun hkk => hp hkk.symm
    simp [lookupKey, hk]
    exact ih fun q hq => h q (List.mem_cons_of_mem _ hq)

theorem mem_setKey {κ ν : Type} [DecidableEq κ] {k : κ} {v : ν} {p : κ × ν}
    {l : List (κ × ν)} (h : p ∈ setKey k v l) : p = (k, v) ∨ p ∈ l := by
  induction l with
  | nil =>
    simp [setKey] at h
    exact Or.inl h
  | cons q rest ih =>
    obtain ⟨qk, qv⟩ := q
    by_cases hk : k = qk
    · subst hk
      simp [setKey] at h
      rcases h with h | h
      · exact Or.inl h
      · exact Or.inr (List.mem_cons_of_mem _ h)
    · simp [setKey, hk] at h
      rcases h with h | h
      · exact Or.inr (by simp [h])
      · rcases ih h with h' | h'
        · exact Or.inl h'
        · exact Or.inr (List.mem_cons_of_mem _ h')

theorem sum_map_setKey_replace {κ ν : Type} [DecidableEq κ] (f : κ × ν → Int)
    (k : κ) (v : ν) {w : ν} {l : List (κ × ν)} (hl : lookupKey k l = some w) :
    ((setKey k v l).map f).sum = (l.map f).sum - f (k, w) + f (k, v) := by
  induction l with
  | nil => simp [lookupKey] at hl
  | cons p rest ih =>
    by_cases hk : k = p.1
    · subst hk
      simp [lookupKey] at hl
      subst hl
      simp [setKey]
      ring
    · simp [lookupKey, hk] at hl
      simp [setKey, hk, ih hl]
      ring

theorem sum_map_setKey_fresh {κ ν : Type} [DecidableEq κ] (f : κ × ν → Int)
    (k : κ) (v : ν) {l : List (κ × ν)} (hl : lookupKey k l = none) :
    ((setKey k v l).map f).sum = (l.map f).sum + f (k, v) := by
  induction l with
  | nil => simp [setKey]
  | cons p rest ih =>
    by_cases hk : k = p.1
    · simp [lookupKey, hk] at hl
    · simp [lookupKey, hk] at hl
      simp [setKey, hk, ih hl]
      ring

theorem get_balance_transfer (s : State) (token from_ to_ : Addr) (amount : Int)
    (u t : Addr) : get_balance (transfer s token from_ to_ amount) u t = get_balance s u t :=
  rfl

theorem get_intent_transfer (s : State) (token from_ to_ : Addr) (amount : Int)
    (i : Nat) : get_intent (transfer s token from_ to_ amount) i = get_intent s i :=
  rfl

theorem lockedSum_transfer (s : State) (token from_ to_ : Addr) (amount : Int)
    (u t : Addr) : lockedSum (transfer s token from_ to_ amount) u t = lockedSum s u t :=
  rfl

theorem get_balance_set_balance_self (s : State) (u t : Addr) (b : Balance) :
    get_balance (set_balance s u t b) u t = b := by
  simp [get_balance, set_balance, lookupKey_setKey_self]

theorem get_balance_set_balance_ne (s : State) (u t : Addr) (b : Balance)
    {u' t' : Addr} (h : (u', t') ≠ (u, t)) :
    get_balance (set_balance s u t b) u' t' = get_balance s u' t' := by
  simp [get_balance, set_balance, lookupKey_setKey_ne _ _ h]

theorem get_intent_set_balance (s : State) (u t : Addr) (b : Balance) (i : Nat) :
    get_intent (set_balance s u t b) i = get_intent s i :=
  rfl

theorem lockedSum_set_balance (s : State) (u t : Addr) (b : Balance) (u' t' : Addr) :
    lockedSum (set_balance s u t b) u' t' = lockedSum s u' t' :=
  rfl

theorem get_balance_set_intent (s : State) (i : Nat) (intent : Intent) (u t : Addr) :
    get_balance (set_intent s i intent) u t = get_balance s u t :=
  rfl

theorem get_intent_set_intent_self (s : State) (i : Nat) (intent : Intent) :
    get_intent (set_intent s i intent) i = some intent := by
  simp [get_intent, set_intent, lookupKey_setKey_self]

theorem get_intent_set_intent_ne (s : State) (i : Nat) (intent : Intent)
    {i' : Nat} (h : i' ≠ i) :
    get_intent (set_intent s i intent) i' = get_intent s i' := by
  simp [get_intent, set_intent, lookupKey_setKey_ne _ _ h]

theorem get_balance_add_user_intent (s : State) (user : Addr) (i : Nat) (u t : Addr) :
    get_balance (add_user_intent s user i) u t = get_balance s u t :=
  rfl

theorem get_intent_add_user_intent (s : State) (user : Addr) (i : Nat) (i' : Nat) :
    get_intent (add_user_intent s user i) i' = get_intent s i' :=
  rfl

theorem lockedSum_add_user_intent (s : State) (user : Addr) (i : Nat) (u t : Addr) :
    lockedSum (add_user_intent s user i) u t = lockedSum s u t :=
  rfl

theorem tokBal_transfer_to (s : State) (token from_ to_ : Addr) (amount : Int)
    (h : to_ ≠ from_) :
    tokBal (transfer s token from_ to_ amount) token to_ = tokBal s token to_ + amount := by
  have hne : (token, to_) ≠ (token, from_) := by simp [h]
  simp [transfer, tokBal, lookupKey_setKey_self, lookupKey_setKey_ne _ _ hne]

theorem tokBal_transfer_from (s : State) (token from_ to_ : Addr) (amount : Int)
    (h : to_ ≠ from_) :
    tokBal (transfer s token from_ to_ amount) token from_ = tokBal s token from_ - amount := by
  have h' : from_ ≠ to_ := Ne.symm h
  have hne : (token, from_) ≠ (token, to_) := by simp [h']
  simp [transfer, tokBal, lookupKey_setKey_self, lookupKey_setKey_ne _ _ hne]

theorem tokBal_transfer_other (s : State) (token from_ to_ : Addr) (amount : Int)
    {token' holder : Addr} (h1 : (token', holder) ≠ (token, from_))
    (h2 : (token', holder) ≠ (token, to_)) :
    tokBal (transfer s token from_ to_ amount) token' holder = tokBal s token' holder := by
  simp [transfer, tokBal, lookupKey_setKey_ne _ _ h2, lookupKey_setKey_ne _ _ h1]

theorem lockedSum_nonneg (s : State) (hwf : ∀ p ∈ s.intents, WfIntent p.2)
    (u t : Addr) : 0 ≤ lockedSum s u t := by
  unfold lockedSum
  apply List.sum_nonneg
  intro x hx
  simp only [List.mem_map] at hx
  obtain ⟨p, hp, rfl⟩ := hx
  unfold intentLock
  split
  · obtain ⟨h1, h2, _, _, _⟩ := hwf p hp
    linarith
  · exact le_refl 0

theorem ContractInv_deposit (s : State) (token : Addr) (amount : Int)
    (from_ : Addr) (h : ContractInv s) :
    ContractInv (deposit s token amount from_).2 := by
  obtain ⟨havail, hlock, hint⟩ := h
  by_cases h0 : amount ≤ 0
  · simpa [deposit, h0] using ⟨havail, hlock, hint⟩
  · push_neg at h0
    simp only [deposit, if_neg (by linarith : ¬ amount ≤ 0)]
    refine ⟨?_, ?_, ?_⟩
    · intro u t
      by_cases hk : (u, t) = (from_, token)
      · obtain ⟨hu, ht⟩ := Prod.mk.injEq .. ▸ hk
        subst hu; subst ht
        rw [get_balance_set_balance_self]
        have := havail u t
        rw [get_balance_transfer] at *
        simp only []
        have h2 := havail u t
        linarith [havail u t]
      · rw [get_balance_set_balance_ne _ _ _ _ hk, get_balance_transfer]
        exact havail u t
    · intro u t
      by_cases hk : (u, t) = (from_, token)
      · obtain ⟨hu, ht⟩ := Prod.mk.injEq .. ▸ hk
        subst hu; subst ht
        rw [get_balance_set_balance_self]
        rw [lockedSum_set_balance, lockedSum_transfer]
        exact hlock u t
      · rw [get_balance_set_balance_ne _ _ _ _ hk, get_balance_transfer,
          lockedSum_set_balance, lockedSum_transfer]
        exact hlock u t
    · exact hint

theorem ContractInv_withdraw (s : State) (token : Addr) (amount : Int)
    (to_ : Addr) (h : ContractInv s) :
    ContractInv (withdraw s token amount to_).2 := by
  obtain ⟨havail, hlock, hint⟩ := h
  by_cases h0 : amount ≤ 0
  · simpa [withdraw, h0] using ⟨havail, hlock, hint⟩
  · by_cases h1 : (get_balance s to_ token).available < amount
    · simpa [withdraw, h0, h1] using ⟨havail, hlock, hint⟩
    · simp only [withdraw, if_neg h0, if_neg h1]
      refine ⟨?_, ?_, ?_⟩
      · intro u t
        by_cases hk : (u, t) = (to_, token)
        · obtain ⟨hu, ht⟩ := Prod.mk.injEq .. ▸ hk
          subst hu; subst ht
          rw [get_balance_transfer, get_balance_set_balance_self]
          simp only []
          push_neg at h1
          linarith
        · rw [get_balance_transfer, get_balance_set_balance_ne _ _ _ _ hk]
          exact havail u t
      · intro u t
        by_cases hk : (u, t) = (to_, token)
        · obtain ⟨hu, ht⟩ := Prod.mk.injEq .. ▸ hk
          subst hu; subst ht
          rw [get_balance_transfer, get_balance_set_balance_self,
            lockedSum_transfer, lockedSum_set_balance]
          exact hlock u t
        · rw [get_balance_transfer, get_balance_set_balance_ne _ _ _ _ hk,
            lockedSum_transfer, lockedSum_set_balance]
          exact hlock u t
      · exact hint

theorem intentLock_ne (u t : Addr) (p : Nat × Intent)
    (h : (p.2.creator, p.2.sell_token) ≠ (u, t)) : intentLock u t p = 0 := by
  unfold intentLock
  rw [if_neg]
  rintro ⟨h1, h2, -⟩
  exact h (by simp [h1, h2])

theorem get_balance_next_id (s : State) (u t : Addr) :
    get_balance (get_next_intent_id s).2 u t = get_balance s u t :=
  rfl

theorem lockedSum_next_id (s : State) (u t : Addr) :
    lockedSum (get_next_intent_id s).2 u t = lockedSum s u t :=
  rfl

theorem create_intent_ok (s : State) (creator sell_token : Addr) (sell_amount : Int)
    (buy_token : Addr) (min_buy_amount target_price incentive : Int)
    (expiry current_time : Nat)
    (c1 : ¬(sell_amount ≤ 0 ∨ min_buy_amount ≤ 0)) (c2 : ¬target_price ≤ 0)
    (c3 : ¬(incentive < 0 ∨ incentive > sell_amount)) (c4 : ¬expiry ≤ current_time)
    (c5 : ¬(get_balance s creator sell_token).available < sell_amount + incentive) :
    create_intent s creator sell_token sell_amount buy_token min_buy_amount
      target_price incentive expiry current_time =
    (.ok s.counter,
      add_user_intent
        (set_intent
          (get_next_intent_id
            (set_balance s creator sell_token
              { available := (get_balance s creator sell_token).available -
                  (sell_amount + incentive)
                locked := (get_balance s creator sell_token).locked +
                  (sell_amount + incentive) })).2
          s.counter
          { id := s.counter, creator := creator, sell_token := sell_token
            sell_amount := sell_amount, buy_token := buy_token
            min_buy_amount := min_buy_amount, target_price := target_price
            incentive := incentive, expiry := expiry, status := .Active
            executor := none, actual_buy_amount := none })
        creator s.counter) := by
  simp only [create_intent, if_neg c1, if_neg c2, if_neg c3, if_neg c4, if_neg c5]
  rfl

theorem execute_intent_ok (s : State) (intent_id : Nat) (executor : Addr)
    (buy_amount : Int) (current_time : Nat) (intent : Intent)
    (hget : get_intent s intent_id = some intent)
    (hact : intent.status = .Active)
    (hexp : ¬ intent.expiry < current_time)
    (hmin : ¬ buy_amount < intent.min_buy_amount)
    (hpr : ¬ (buy_amount * PRICE_SCALE).tdiv intent.sell_amount < intent.target_price) :
    execute_intent s intent_id executor buy_amount current_time =
    (.ok (),
      set_intent
        (set_balance
          (transfer
            (transfer
              (transfer s intent.sell_token contractAddr executor intent.sell_amount)
              intent.buy_token executor intent.creator buy_amount)
            intent.sell_token contractAddr executor intent.incentive)
          intent.creator intent.sell_token
          { available := (get_balance s intent.creator intent.sell_token).available
            locked := (get_balance s intent.creator intent.sell_token).locked -
              (intent.sell_amount + intent.incentive) })
        intent_id
        { intent with status := .Executed, executor := some executor
                      actual_buy_amount := some buy_amount }) := by
  have h1 : ¬ intent.status ≠ IntentStatus.Active := by simp [hact]
  simp only [execute_intent, hget, if_neg h1, if_neg hexp, if_neg hmin, if_neg hpr]
  rfl

theorem cancel_intent_ok (s : State) (intent_id : Nat) (creator : Addr)
    (intent : Intent) (hget : get_intent s intent_id = some intent)
    (hc : intent.creator = creator) (hact : intent.status = .Active) :
    cancel_intent s intent_id creator =
    (.ok (),
      set_intent
        (set_balance s creator intent.sell_token
          { available := (get_balance s creator intent.sell_token).available +
              (intent.sell_amount + intent.incentive)
            locked := (get_balance s creator intent.sell_token).locked -
              (intent.sell_amount + intent.incentive) })
        intent_id { intent with status := .Cancelled }) := by
  have h1 : ¬ intent.creator ≠ creator := by simp [hc]
  have h2 : ¬ intent.status ≠ IntentStatus.Active := by simp [hact]
  simp only [cancel_intent, hget, if_neg h1, if_neg h2]

theorem admin_cancel_intent_ok (s : State) (intent_id : Nat) (a : Addr)
    (intent : Intent) (hadmin : get_admin s = some a)
    (hget : get_intent s intent_id = some intent)
    (hact : intent.status = .Active) :
    admin_cancel_intent s intent_id a =
    (.ok (),
      set_intent
        (set_balance s intent.creator intent.sell_token
          { available := (get_balance s intent.creator intent.sell_token).available +
              (intent.sell_amount + intent.incentive)
            locked := (get_balance s intent.creator intent.sell_token).locked -
              (intent.sell_amount + intent.incentive) })
        intent_id { intent with status := .Cancelled }) := by
  have h1 : ¬ a ≠ a := by simp
  have h2 : ¬ intent.status ≠ IntentStatus.Active := by simp [hact]
  simp only [admin_cancel_intent, hadmin, hget, if_neg h1, if_neg h2]

theorem intents_set_balance (s : State) (u t : Addr) (b : Balance) :
    (set_balance s u t b).intents = s.intents := rfl

theorem intents_next_id (s : State) :
    ((get_next_intent_id s).2).intents = s.intents := rfl

theorem intents_set_intent (s : State) (i : Nat) (v : Intent) :
    (set_intent s i v).intents = setKey i v s.intents := rfl

theorem intents_add_user_intent (s : State) (u : Addr) (i : Nat) :
    (add_user_intent s u i).intents = s.intents := rfl

theorem intents_transfer (s : State) (token a b : Addr) (amount : Int) :
    (transfer s token a b amount).intents = s.intents := rfl

theorem counter_set_balance (s : State) (u t : Addr) (b : Balance) :
    (set_balance s u t b).counter = s.counter := rfl

theorem counter_next_id (s : State) :
    ((get_next_intent_id s).2).counter = s.counter + 1 := rfl

theorem counter_set_intent (s : State) (i : Nat) (v : Intent) :
    (set_intent s i v).counter = s.counter := rfl

theorem counter_add_user_intent (s : State) (u : Addr) (i : Nat) :
    (add_user_intent s u i).counter = s.counter := rfl

theorem counter_transfer (s : State) (token a b : Addr) (amount : Int) :
    (transfer s token a b amount).counter = s.counter := rfl

theorem balances_set_intent (s : State) (i : Nat) (v : Intent) :
    (set_intent s i v).balances = s.balances := rfl

theorem balances_add_user_intent (s : State) (u : Addr) (i : Nat) :
    (add_user_intent s u i).balances = s.balances := rfl

theorem balances_transfer (s : State) (token a b : Addr) (amount : Int) :
    (transfer s token a b amount).balances = s.balances := rfl

theorem balances_set_balance (s : State) (u t : Addr) (b : Balance) :
    (set_balance s u t b).balances = setKey (u, t) b s.balances := rfl

theorem userIntents_set_balance (s : State) (u t : Addr) (b : Balance) :
    (set_balance s u t b).userIntents = s.userIntents := rfl

theorem userIntents_set_intent (s : State) (i : Nat) (v : Intent) :
    (set_intent s i v).userIntents = s.userIntents := rfl

theorem userIntents_transfer (s : State) (token a b : Addr) (amount : Int) :
    (transfer s token a b amount).userIntents = s.userIntents := rfl

theorem admin_set_balance (s : State) (u t : Addr) (b : Balance) :
    (set_balance s u t b).admin = s.admin := rfl

theorem admin_set_intent (s : State) (i : Nat) (v : Intent) :
    (set_intent s i v).admin = s.admin := rfl

theorem admin_transfer (s : State) (token a b : Addr) (amount : Int) :
    (transfer s token a b amount).admin = s.admin := rfl

theorem lockedSum_set_intent (s : State) (i : Nat) (v : Intent) (u t : Addr) :
    lockedSum (set_intent s i v) u t =
      ((setKey i v s.intents).map (intentLock u t)).sum := rfl

theorem ContractInv_create (s : State) (creator sell_token : Addr)
    (sell_amount : Int) (buy_token : Addr)
    (min_buy_amount target_price incentive : Int) (expiry current_time : Nat)
    (h : ContractInv s) :
    ContractInv (create_intent s creator sell_token sell_amount buy_token
      min_buy_amount target_price incentive expiry current_time).2 := by
  obtain ⟨havail, hlock, hint⟩ := h
  by_cases c1 : sell_amount ≤ 0 ∨ min_buy_amount ≤ 0
  · simp only [create_intent, if_pos c1]
    exact ⟨havail, hlock, hint⟩
  by_cases c2 : target_price ≤ 0
  · simp only [create_intent, if_neg c1, if_pos c2]
    exact ⟨havail, hlock, hint⟩
  by_cases c3 : incentive < 0 ∨ incentive > sell_amount
  · simp only [create_intent, if_neg c1, if_neg c2, if_pos c3]
    exact ⟨havail, hlock, hint⟩
  by_cases c4 : expiry ≤ current_time
  · simp only [create_intent, if_neg c1, if_neg c2, if_neg c3, if_pos c4]
    exact ⟨havail, hlock, hint⟩
  by_cases c5 : (get_balance s creator sell_token).available < sell_amount + incentive
  · simp only [create_intent, if_neg c1, if_neg c2, if_neg c3, if_neg c4, if_pos c5]
    exact ⟨havail, hlock, hint⟩
  rw [create_intent_ok s creator sell_token sell_amount buy_token min_buy_amount
    target_price incentive expiry current_time c1 c2 c3 c4 c5]
  push_neg at c1 c3 c5
  have hfresh : lookupKey s.counter s.intents = none :=
    lookupKey_eq_none_of_forall fun p hp => Nat.ne_of_lt (hint p hp).2
  refine ⟨?_, ?_, ?_⟩
  · intro u t
    rw [get_balance_add_user_intent, get_balance_set_intent, get_balance_next_id]
    by_cases hk : (u, t) = (creator, sell_token)
    · obtain ⟨hu, ht⟩ := Prod.mk.injEq .. ▸ hk
      subst hu; subst ht
      rw [get_balance_set_balance_self]
      simp only []
      linarith
    · rw [get_balance_set_balance_ne _ _ _ _ hk]
      exact havail u t
  · intro u t
    rw [get_balance_add_user_intent, get_balance_set_intent, get_balance_next_id,
      lockedSum_add_user_intent, lockedSum_set_intent, intents_next_id,
      intents_set_balance, sum_map_setKey_fresh _ _ _ hfresh]
    by_cases hk : (u, t) = (creator, sell_token)
    · obtain ⟨hu, ht⟩ := Prod.mk.injEq .. ▸ hk
      subst hu; subst ht
      rw [get_balance_set_balance_self]
      have hone : intentLock u t (s.counter,
          { id := s.counter, creator := u, sell_token := t
            sell_amount := sell_amount, buy_token := buy_token
            min_buy_amount := min_buy_amount, target_price := target_price
            incentive := incentive, expiry := expiry, status := .Active
            executor := none, actual_buy_amount := none }) = sell_amount + incentive := by
        simp [intentLock]
      rw [hone]
      have := hlock u t
      simp only []
      rw [this]
      rfl
    · rw [get_balance_set_balance_ne _ _ _ _ hk]
      have hzero : intentLock u t (s.counter,
          { id := s.counter, creator := creator, sell_token := sell_token
            sell_amount := sell_amount, buy_token := buy_token
            min_buy_amount := min_buy_amount, target_price := target_price
            incentive := incentive, expiry := expiry, status := .Active
            executor := none, actual_buy_amount := none }) = 0 := by
        apply intentLock_ne
        simpa using fun hc ht => hk (by simp [hc, ht])
      rw [hzero, hlock u t]
      simp only [add_zero]
      rfl
  · intro p hp
    rw [intents_add_user_intent, intents_set_intent, intents_next_id,
      intents_set_balance] at hp
    rw [counter_add_user_intent, counter_set_intent, counter_next_id,
      counter_set_balance]
    rcases mem_setKey hp with h' | h'
    · subst h'
      refine ⟨⟨by linarith [c1.1], by linarith [c3.1], by linarith [c3.2],
        by linarith [c1.2], by linarith [not_le.mp c2]⟩, ?_⟩
      exact Nat.lt_succ_self _
    · exact ⟨(hint p h').1, Nat.lt_succ_of_lt (hint p h').2⟩


theorem ContractInv_execute (s : State) (intent_id : Nat) (executor : Addr)
    (buy_amount : Int) (current_time : Nat) (h : ContractInv s) :
    ContractInv (execute_intent s intent_id executor buy_amount current_time).2 := by
  obtain ⟨havail, hlock, hint⟩ := h
  rcases hget : get_intent s intent_id with _ | intent
  · simp only [execute_intent, hget]
    exact ⟨havail, hlock, hint⟩
  by_cases h1 : intent.status ≠ IntentStatus.Active
  · simp only [execute_intent, hget, if_pos h1]
    exact ⟨havail, hlock, hint⟩
  by_cases h2 : intent.expiry < current_time
  · simp only [execute_intent, hget, if_neg h1, if_pos h2]
    exact ⟨havail, hlock, hint⟩
  by_cases h3 : buy_amount < intent.min_buy_amount
  · simp only [execute_intent, hget, if_neg h1, if_neg h2, if_pos h3]
    exact ⟨havail, hlock, hint⟩
  by_cases h4 : (buy_amount * PRICE_SCALE).tdiv intent.sell_amount < intent.target_price
  · simp only [execute_intent, hget, if_neg h1, if_neg h2, if_neg h3, if_pos h4]
    exact ⟨havail, hlock, hint⟩
  have hact : intent.status = IntentStatus.Active := not_not.mp h1
  rw [execute_intent_ok s intent_id executor buy_amount current_time intent hget
    hact h2 h3 h4]
  have hl : lookupKey intent_id s.intents = some intent := hget
  have hwf : WfIntent intent := (hint _ (lookupKey_mem hl)).1
  have hid : intent_id < s.counter := (hint _ (lookupKey_mem hl)).2
  have hnew : ∀ u t, intentLock u t (intent_id,
      { intent with status := IntentStatus.Executed, executor := some executor
                    actual_buy_amount := some buy_amount }) = 0 := by
    intro u t
    simp [intentLock]
  refine ⟨?_, ?_, ?_⟩
  · intro u t
    rw [get_balance_set_intent]
    by_cases hk : (u, t) = (intent.creator, intent.sell_token)
    · obtain ⟨hu, ht⟩ := Prod.mk.injEq .. ▸ hk
      rw [hu, ht, get_balance_set_balance_self]
      exact havail _ _
    · rw [get_balance_set_balance_ne _ _ _ _ hk, get_balance_transfer,
        get_balance_transfer, get_balance_transfer]
      exact havail u t
  · intro u t
    rw [get_balance_set_intent, lockedSum_set_intent, intents_set_balance,
      intents_transfer, intents_transfer, intents_transfer,
      sum_map_setKey_replace _ _ _ hl, hnew u t]
    by_cases hk : (u, t) = (intent.creator, intent.sell_token)
    · obtain ⟨hu, ht⟩ := Prod.mk.injEq .. ▸ hk
      rw [hu, ht, get_balance_set_balance_self]
      have hold : intentLock intent.creator intent.sell_token (intent_id, intent) =
          intent.sell_amount + intent.incentive := by
        simp [intentLock, hact]
      rw [hold]
      simp only []
      rw [hlock intent.creator intent.sell_token]
      simp only [add_zero]
      rfl
    · rw [get_balance_set_balance_ne _ _ _ _ hk, get_balance_transfer,
        get_balance_transfer, get_balance_transfer]
      have hold : intentLock u t (intent_id, intent) = 0 :=
        intentLock_ne u t _ (Ne.symm hk)
      rw [hold, hlock u t]
      simp only [sub_zero, add_zero]
      rfl
  · intro p hp
    rw [intents_set_intent, intents_set_balance, intents_transfer,
      intents_transfer, intents_transfer] at hp
    rw [counter_set_intent, counter_set_balance, counter_transfer,
      counter_transfer, counter_transfer]
    rcases mem_setKey hp with h' | h'
    · subst h'
      exact ⟨hwf, hid⟩
    · exact hint p h'

theorem ContractInv_cancel (s : State) (intent_id : Nat) (creator : Addr)
    (h : ContractInv s) : ContractInv (cancel_intent s intent_id creator).2 := by
  obtain ⟨havail, hlock, hint⟩ := h
  rcases hget : get_intent s intent_id with _ | intent
  · simp only [cancel_intent, hget]
    exact ⟨havail, hlock, hint⟩
  by_cases h1 : intent.creator ≠ creator
  · simp only [cancel_intent, hget, if_pos h1]
    exact ⟨havail, hlock, hint⟩
  by_cases h2 : intent.status ≠ IntentStatus.Active
  · simp only [cancel_intent, hget, if_neg h1, if_pos h2]
    exact ⟨havail, hlock, hint⟩
  have hc : intent.creator = creator := not_not.mp h1
  have hact : intent.status = IntentStatus.Active := not_not.mp h2
  rw [cancel_intent_ok s intent_id creator intent hget hc hact]
  have hl : lookupKey intent_id s.intents = some intent := hget
  have hwf : WfIntent intent := (hint _ (lookupKey_mem hl)).1
  have hid : intent_id < s.counter := (hint _ (lookupKey_mem hl)).2
  have hws : 0 < intent.sell_amount := hwf.1
  have hwi : 0 ≤ intent.incentive := hwf.2.1
  have hnew : ∀ u t,
      intentLock u t (intent_id, { intent with status := IntentStatus.Cancelled }) = 0 := by
    intro u t
    simp [intentLock]
  refine ⟨?_, ?_, ?_⟩
  · intro u t
    rw [get_balance_set_intent]
    by_cases hk : (u, t) = (creator, intent.sell_token)
    · obtain ⟨hu, ht⟩ := Prod.mk.injEq .. ▸ hk
      rw [hu, ht, get_balance_set_balance_self]
      simp only []
      linarith [havail creator intent.sell_token]
    · rw [get_balance_set_balance_ne _ _ _ _ hk]
      exact havail u t
  · intro u t
    rw [get_balance_set_intent, lockedSum_set_intent, intents_set_balance,
      sum_map_setKey_replace _ _ _ hl, hnew u t]
    by_cases hk : (u, t) = (creator, intent.sell_token)
    · obtain ⟨hu, ht⟩ := Prod.mk.injEq .. ▸ hk
      rw [hu, ht, get_balance_set_balance_self]
      have hold : intentLock creator intent.sell_token (intent_id, intent) =
          intent.sell_amount + intent.incentive := by
        simp [intentLock, hact, hc]
      rw [hold]
      simp only []
      rw [hlock creator intent.sell_token]
      simp only [add_zero]
      rfl
    · rw [get_balance_set_balance_ne _ _ _ _ hk]
      have hold : intentLock u t (intent_id, intent) = 0 := by
        apply intentLock_ne
        rw [hc]
        exact Ne.symm hk
      rw [hold, hlock u t]
      simp only [sub_zero, add_zero]
      rfl
  · intro p hp
    rw [intents_set_intent, intents_set_balance] at hp
    rw [counter_set_intent, counter_set_balance]
    rcases mem_setKey hp with h' | h'
    · subst h'
      exact ⟨hwf, hid⟩
    · exact hint p h'

theorem ContractInv_admin_cancel (s : State) (intent_id : Nat) (a : Addr)
    (h : ContractInv s) : ContractInv (admin_cancel_intent s intent_id a).2 := by
  obtain ⟨havail, hlock, hint⟩ := h
  rcases hadm : get_admin s with _ | stored_admin
  · simp only [admin_cancel_intent, hadm]
    exact ⟨havail, hlock, hint⟩
  by_cases h0 : a ≠ stored_admin
  · simp only [admin_cancel_intent, hadm, if_pos h0]
    exact ⟨havail, hlock, hint⟩
  rcases hget : get_intent s intent_id with _ | intent
  · simp only [admin_cancel_intent, hadm, if_neg h0, hget]
    exact ⟨havail, hlock, hint⟩
  by_cases h2 : intent.status ≠ IntentStatus.Active
  · simp only [admin_cancel_intent, hadm, if_neg h0, hget, if_pos h2]
    exact ⟨havail, hlock, hint⟩
  have hact : intent.status = IntentStatus.Active := not_not.mp h2
  have ha : a = stored_admin := not_not.mp h0
  subst ha
  rw [admin_cancel_intent_ok s intent_id a intent hadm hget hact]
  have hl : lookupKey intent_id s.intents = some intent := hget
  have hwf : WfIntent intent := (hint _ (lookupKey_mem hl)).1
  have hid : intent_id < s.counter := (hint _ (lookupKey_mem hl)).2
  have hws : 0 < intent.sell_amount := hwf.1
  have hwi : 0 ≤ intent.incentive := hwf.2.1
  have hnew : ∀ u t,
      intentLock u t (intent_id, { intent with status := IntentStatus.Cancelled }) = 0 := by
    intro u t
    simp [intentLock]
  refine ⟨?_, ?_, ?_⟩
  · intro u t
    rw [get_balance_set_intent]
    by_cases hk : (u, t) = (intent.creator, intent.sell_token)
    · obtain ⟨hu, ht⟩ := Prod.mk.injEq .. ▸ hk
      rw [hu, ht, get_balance_set_balance_self]
      simp only []
      linarith [havail intent.creator intent.sell_token]
    · rw [get_balance_set_balance_ne _ _ _ _ hk]
      exact havail u t
  · intro u t
    rw [get_balance_set_intent, lockedSum_set_intent, intents_set_balance,
      sum_map_setKey_replace _ _ _ hl, hnew u t]
    by_cases hk : (u, t) = (intent.creator, intent.sell_token)
    · obtain ⟨hu, ht⟩ := Prod.mk.injEq .. ▸ hk
      rw [hu, ht, get_balance_set_balance_self]
      have hold : intentLock intent.creator intent.sell_token (intent_id, intent) =
          intent.sell_amount + intent.incentive := by
        simp [intentLock, hact]
      rw [hold]
      simp only []
      rw [hlock intent.creator intent.sell_token]
      simp only [add_zero]
      rfl
    · rw [get_balance_set_balance_ne _ _ _ _ hk]
      have hold : intentLock u t (intent_id, intent) = 0 :=
        intentLock_ne u t _ (Ne.symm hk)
      rw [hold, hlock u t]
      simp only [sub_zero, add_zero]
      rfl
  · intro p hp
    rw [intents_set_intent, intents_set_balance] at hp
    rw [counter_set_intent, counter_set_balance]
    rcases mem_setKey hp with h' | h'
    · subst h'
      exact ⟨hwf, hid⟩
    · exact hint p h'

theorem ContractInv_reachable (s : State) (h : Reachable s) : ContractInv s := by
  induction h with
  | init admin =>
    refine ⟨?_, ?_, ?_⟩
    · intro u t
      simp [get_balance, lookupKey]
    · intro u t
      simp [get_balance, lookupKey, lockedSum]
    · intro p hp
      simp at hp
  | stepDeposit s token amount from_ _ ih =>
    exact ContractInv_deposit s token amount from_ ih
  | stepWithdraw s token amount to_ _ ih =>
    exact ContractInv_withdraw s token amount to_ ih
  | stepCreate s creator sell_token sell_amount buy_token min_buy_amount target_price incentive expiry current_time _ ih =>
    exact ContractInv_create s creator sell_token sell_amount buy_token
      min_buy_amount target_price incentive expiry current_time ih
  | stepExecute s intent_id executor buy_amount current_time _ ih =>
    exact ContractInv_execute s intent_id executor buy_amount current_time ih
  | stepCancel s intent_id creator _ ih =>
    exact ContractInv_cancel s intent_id creator ih
  | stepAdminCancel s intent_id a _ ih =>
    exact ContractInv_admin_cancel s intent_id a ih

theorem tokBal_set_balance (s : State) (u t : Addr) (b : Balance)
    (token holder : Addr) :
    tokBal (set_balance s u t b) token holder = tokBal s token holder := rfl

theorem tokBal_set_intent (s : State) (i : Nat) (v : Intent) (token holder : Addr) :
    tokBal (set_intent s i v) token holder = tokBal s token holder := rfl

theorem get_user_intents_add_self (s : State) (user : Addr) (i : Nat) :
    get_user_intents (add_user_intent s user i) user =
      get_user_intents s user ++ [i] := by
  simp [get_user_intents, add_user_intent, lookupKey_setKey_self]

/-- C1: in every reachable state of the contract, for every (user, token)
pair, the Balance fields satisfy `available ≥ 0` and `locked ≥ 0`, and
`locked` equals the sum of `sell_amount + incentive` over all of that user's
intents in that token whose status is `Active`.  `Reachable` closes the
freshly constructed state under all six public operations with arbitrary
arguments, so every operation preserves the invariant; the preservation
lemmas show the cancel operations release the full `sell_amount + incentive`
back to `available` exactly when an intent becomes `Cancelled`, and execute
removes it from `locked` without crediting `available` when it becomes
`Executed`. -/
theorem C1_balance_invariant (s : State) (h : Reachable s) (user token : Addr) :
    0 ≤ (get_balance s user token).available ∧
    0 ≤ (get_balance s user token).locked ∧
    (get_balance s user token).locked = lockedSum s user token := by
  obtain ⟨havail, hlock, hint⟩ := ContractInv_reachable s h
  refine ⟨havail user token, ?_, hlock user token⟩
  rw [hlock user token]
  exact lockedSum_nonneg s (fun p hp => (hint p hp).1) user token

theorem C1_balance_invariant_witness :
    0 ≤ (get_balance (deposit initState 5 100 7).2 7 5).available ∧
    0 ≤ (get_balance (deposit initState 5 100 7).2 7 5).locked ∧
    (get_balance (deposit initState 5 100 7).2 7 5).locked =
      lockedSum (deposit initState 5 100 7).2 7 5 :=
  C1_balance_invariant _ (Reachable.stepDeposit _ 5 100 7 (Reachable.init 9)) 7 5

/-- C6: on any state whose registered admin is `a` and any `Active` intent,
`admin_cancel_intent` called by the admin returns exactly the same result and
state as `cancel_intent` called by the intent's creator — the two operations
differ only in their authorization checks. -/
theorem C6_admin_cancel_equals_cancel (s : State) (intent_id : Nat) (a : Addr)
    (intent : Intent) (hadmin : get_admin s = some a)
    (hget : get_intent s intent_id = some intent)
    (hact : intent.status = IntentStatus.Active) :
    admin_cancel_intent s intent_id a = cancel_intent s intent_id intent.creator := by
  rw [admin_cancel_intent_ok s intent_id a intent hadmin hget hact,
    cancel_intent_ok s intent_id intent.creator intent hget rfl hact]

theorem C6_admin_cancel_equals_cancel_witness :
    admin_cancel_intent exState 0 9 = cancel_intent exState 0 exIntent.creator :=
  C6_admin_cancel_equals_cancel exState 0 9 exIntent (by decide) (by decide) (by decide)

/-- C7: every public operation that returns an error leaves the entire
persisted state (balances, intents, counter, user intent indexes — and the
external token ledgers) exactly as it was before the call: each validation
failure returns before any transfer or bookkeeping write. -/
theorem C7_error_leaves_state_unchanged (s : State) :
    (∀ token (amount : Int) from_ e,
      (deposit s token amount from_).1 = .error e →
      (deposit s token amount from_).2 = s) ∧
    (∀ token (amount : Int) to_ e,
      (withdraw s token amount to_).1 = .error e →
      (withdraw s token amount to_).2 = s) ∧
    (∀ creator sell_token (sell_amount : Int) buy_token
        (min_buy_amount target_price incentive : Int) (expiry current_time : Nat) e,
      (create_intent s creator sell_token sell_amount buy_token min_buy_amount
        target_price incentive expiry current_time).1 = .error e →
      (create_intent s creator sell_token sell_amount buy_token min_buy_amount
        target_price incentive expiry current_time).2 = s) ∧
    (∀ intent_id executor (buy_amount : Int) (current_time : Nat) e,
      (execute_intent s intent_id executor buy_amount current_time).1 = .error e →
      (execute_intent s intent_id executor buy_amount current_time).2 = s) ∧
    (∀ intent_id creator e,
      (cancel_intent s intent_id creator).1 = .error e →
      (cancel_intent s intent_id creator).2 = s) ∧
    (∀ intent_id a e,
      (admin_cancel_intent s intent_id a).1 = .error e →
      (admin_cancel_intent s intent_id a).2 = s) := by
  refine ⟨?_, ?_, ?_, ?_, ?_, ?_⟩
  · intro token amount from_ e he
    by_cases h0 : amount ≤ 0
    · simp [deposit, h0]
    · simp [deposit, h0] at he
  · intro token amount to_ e he
    by_cases h0 : amount ≤ 0
    · simp [withdraw, h0]
    · by_cases h1 : (get_balance s to_ token).available < amount
      · simp [withdraw, h0, h1]
      · simp [withdraw, h0, h1] at he
  · intro creator sell_token sell_amount buy_token min_buy_amount target_price
      incentive expiry current_time e he
    by_cases c1 : sell_amount ≤ 0 ∨ min_buy_amount ≤ 0
    · simp only [create_intent, if_pos c1]
    · by_cases c2 : target_price ≤ 0
      · simp only [create_intent, if_neg c1, if_pos c2]
      · by_cases c3 : incentive < 0 ∨ incentive > sell_amount
        · simp only [create_intent, if_neg c1, if_neg c2, if_pos c3]
        · by_cases c4 : expiry ≤ current_time
          · simp only [create_intent, if_neg c1, if_neg c2, if_neg c3, if_pos c4]
          · by_cases c5 : (get_balance s creator sell_token).available <
                sell_amount + incentive
            · simp only [create_intent, if_neg c1, if_neg c2, if_neg c3, if_neg c4,
                if_pos c5]
            · rw [create_intent_ok s creator sell_token sell_amount buy_token
                min_buy_amount target_price incentive expiry current_time
                c1 c2 c3 c4 c5] at he
              simp at he
  · intro intent_id executor buy_amount current_time e he
    rcases hget : get_intent s intent_id with _ | intent
    · simp only [execute_intent, hget]
    by_cases h1 : intent.status ≠ IntentStatus.Active
    · simp only [execute_intent, hget, if_pos h1]
    by_cases h2 : intent.expiry < current_time
    · simp only [execute_intent, hget, if_neg h1, if_pos h2]
    by_cases h3 : buy_amount < intent.min_buy_amount
    · simp only [execute_intent, hget, if_neg h1, if_neg h2, if_pos h3]
    by_cases h4 : (buy_amount * PRICE_SCALE).tdiv intent.sell_amount <
        intent.target_price
    · simp only [execute_intent, hget, if_neg h1, if_neg h2, if_neg h3, if_pos h4]
    · rw [execute_intent_ok s intent_id executor buy_amount current_time intent
        hget (not_not.mp h1) h2 h3 h4] at he
      simp at he
  · intro intent_id creator e he
    rcases hget : get_intent s intent_id with _ | intent
    · simp only [cancel_intent, hget]
    by_cases h1 : intent.creator ≠ creator
    · simp only [cancel_intent, hget, if_pos h1]
    by_cases h2 : intent.status ≠ IntentStatus.Active
    · simp only [cancel_intent, hget, if_neg h1, if_pos h2]
    · rw [cancel_intent_ok s intent_id creator intent hget (not_not.mp h1)
        (not_not.mp h2)] at he
      simp at he
  · intro intent_id a e he
    rcases hadm : get_admin s with _ | stored_admin
    · simp only [admin_cancel_intent, hadm]
    by_cases h0 : a ≠ stored_admin
    · simp only [admin_cancel_intent, hadm, if_pos h0]
    rcases hget : get_intent s intent_id with _ | intent
    · simp only [admin_cancel_intent, hadm, if_neg h0, hget]
    by_cases h2 : intent.status ≠ IntentStatus.Active
    · simp only [admin_cancel_intent, hadm, if_neg h0, hget, if_pos h2]
    · have ha : a = stored_admin := not_not.mp h0
      subst ha
      rw [admin_cancel_intent_ok s intent_id a intent hadm hget
        (not_not.mp h2)] at he
      simp at he

theorem C7_error_leaves_state_unchanged_witness :
    (deposit exState 10 0 1).2 = exState ∧
    (withdraw exState 10 7 1).2 = exState ∧
    (create_intent exState 1 10 200 20 60 15000000 5 2000 500).2 = exState ∧
    (execute_intent exState 0 2 100 500).2 = exState ∧
    (cancel_intent exState 0 3).2 = exState ∧
    (admin_cancel_intent exState 0 4).2 = exState :=
  ⟨(C7_error_leaves_state_unchanged exState).1 10 0 1 .InvalidAmount rfl,
   (C7_error_leaves_state_unchanged exState).2.1 10 7 1 .InsufficientBalance rfl,
   (C7_error_leaves_state_unchanged exState).2.2.1 1 10 200 20 60 15000000 5 2000 500
     .InsufficientBalance rfl,
   (C7_error_leaves_state_unchanged exState).2.2.2.1 0 2 100 500
     .MinBuyAmountNotMet rfl,
   (C7_error_leaves_state_unchanged exState).2.2.2.2.1 0 3
     .OnlyCreatorCanCancel rfl,
   (C7_error_leaves_state_unchanged exState).2.2.2.2.2 0 4
     .Unauthorized rfl⟩

/-- C9: `create_intent` rejects with `IntentExpired` exactly when the
requested expiry is not strictly in the future (`expiry ≤ current_time`),
while `execute_intent` fails with `IntentExpired` if and only if the current
ledger time strictly exceeds the intent's expiry — executing at
`current_time = expiry` is not rejected as expired. -/
theorem C9_expiry_semantics (s : State) :
    (∀ creator sell_token (sell_amount : Int) buy_token
        (min_buy_amount target_price incentive : Int) (expiry current_time : Nat),
      0 < sell_amount → 0 < min_buy_amount → 0 < target_price →
      0 ≤ incentive → incentive ≤ sell_amount → expiry ≤ current_time →
      create_intent s creator sell_token sell_amount buy_token min_buy_amount
        target_price incentive expiry current_time = (.error .IntentExpired, s)) ∧
    (∀ intent_id executor (buy_amount : Int) (current_time : Nat) intent,
      get_intent s intent_id = some intent →
      intent.status = IntentStatus.Active →
      ((execute_intent s intent_id executor buy_amount current_time).1 =
        .error .IntentExpired ↔ intent.expiry < current_time)) := by
  constructor
  · intro creator sell_token sell_amount buy_token min_buy_amount target_price
      incentive expiry current_time h1 h2 h3 h4 h5 h6
    have c1 : ¬(sell_amount ≤ 0 ∨ min_buy_amount ≤ 0) := by
      push_neg
      exact ⟨h1, h2⟩
    have c2 : ¬target_price ≤ 0 := not_le.mpr h3
    have c3 : ¬(incentive < 0 ∨ incentive > sell_amount) := by
      push_neg
      exact ⟨h4, h5⟩
    simp only [create_intent, if_neg c1, if_neg c2, if_neg c3, if_pos h6]
  · intro intent_id executor buy_amount current_time intent hget hact
    have h1 : ¬ intent.status ≠ IntentStatus.Active := by simp [hact]
    by_cases h2 : intent.expiry < current_time
    · simp only [execute_intent, hget, if_neg h1, if_pos h2]
      simpa using h2
    · simp only [execute_intent, hget, if_neg h1, if_neg h2]
      by_cases h3 : buy_amount < intent.min_buy_amount
      · simp only [if_pos h3]
        simp [h2]
      · simp only [if_neg h3]
        by_cases h4 : (buy_amount * PRICE_SCALE).tdiv intent.sell_amount <
            intent.target_price
        · simp only [if_pos h4]
          simp [h2]
        · simp only [if_neg h4]
          simp [h2]

theorem C9_expiry_semantics_witness :
    create_intent freshState 1 10 50 20 60 15000000 5 400 500 =
      (.error .IntentExpired, freshState) ∧
    ((execute_intent exState 0 2 160 1000).1 = .error .IntentExpired ↔
      exIntent.expiry < 1000) :=
  ⟨(C9_expiry_semantics freshState).1 1 10 50 20 60 15000000 5 400 500
     (by decide) (by decide) (by decide) (by decide) (by decide) (by decide),
   (C9_expiry_semantics exState).2 0 2 160 1000 exIntent (by decide) (by decide)⟩

theorem terminal_intent_blocks (s : State) (intent_id : Nat) (intent : Intent)
    (hget : get_intent s intent_id = some intent)
    (hst : intent.status ≠ IntentStatus.Active) :
    (∀ creator2, ∃ e, (cancel_intent s intent_id creator2).1 = .error e) ∧
    (∀ executor (buy_amount : Int) (t2 : Nat),
      (execute_intent s intent_id executor buy_amount t2).1 =
        .error .IntentAlreadyExecuted) := by
  constructor
  · intro creator2
    by_cases hc2 : intent.creator ≠ creator2
    · exact ⟨.OnlyCreatorCanCancel, by simp only [cancel_intent, hget, if_pos hc2]⟩
    · exact ⟨.IntentAlreadyExecuted,
        by simp only [cancel_intent, hget, if_neg hc2, if_pos hst]⟩
  · intro executor buy_amount t2
    simp only [execute_intent, hget, if_pos hst]

/-- C3: for valid `create_intent` arguments, if the creator's available
balance in the sell token is below `sell_amount + incentive` the call fails
with `InsufficientBalance` and leaves the state unchanged; otherwise it
debits `available` and credits `locked` by exactly that amount, stores a new
`Active` intent under the current counter value (which then increments, so
successive ids strictly increase), appends the id to the creator's intent
index, and returns the id. -/
theorem C3_create_intent (s : State) (creator sell_token : Addr)
    (sell_amount : Int) (buy_token : Addr)
    (min_buy_amount target_price incentive : Int) (expiry current_time : Nat)
    (h1 : 0 < sell_amount) (h2 : 0 < min_buy_amount) (h3 : 0 < target_price)
    (h4 : 0 ≤ incentive) (h5 : incentive ≤ sell_amount)
    (h6 : current_time < expiry) :
    ((get_balance s creator sell_token).available < sell_amount + incentive →
      create_intent s creator sell_token sell_amount buy_token min_buy_amount
        target_price incentive expiry current_time =
        (.error .InsufficientBalance, s)) ∧
    (sell_amount + incentive ≤ (get_balance s creator sell_token).available →
      ∃ s', create_intent s creator sell_token sell_amount buy_token
          min_buy_amount target_price incentive expiry current_time =
          (.ok s.counter, s') ∧
        (get_balance s' creator sell_token).available =
          (get_balance s creator sell_token).available -
            (sell_amount + incentive) ∧
        (get_balance s' creator sell_token).locked =
          (get_balance s creator sell_token).locked +
            (sell_amount + incentive) ∧
        get_intent s' s.counter = some
          { id := s.counter, creator := creator, sell_token := sell_token
            sell_amount := sell_amount, buy_token := buy_token
            min_buy_amount := min_buy_amount, target_price := target_price
            incentive := incentive, expiry := expiry, status := .Active
            executor := none, actual_buy_amount := none } ∧
        get_user_intents s' creator =
          get_user_intents s creator ++ [s.counter] ∧
        s'.counter = s.counter + 1) := by
  have c1 : ¬(sell_amount ≤ 0 ∨ min_buy_amount ≤ 0) := by
    push_neg
    exact ⟨h1, h2⟩
  have c2 : ¬target_price ≤ 0 := not_le.mpr h3
  have c3 : ¬(incentive < 0 ∨ incentive > sell_amount) := by
    push_neg
    exact ⟨h4, h5⟩
  have c4 : ¬expiry ≤ current_time := not_le.mpr h6
  constructor
  · intro hins
    simp only [create_intent, if_neg c1, if_neg c2, if_neg c3, if_neg c4,
      if_pos hins]
  · intro hok
    have c5 : ¬(get_balance s creator sell_token).available <
        sell_amount + incentive := not_lt.mpr hok
    refine ⟨_, create_intent_ok s creator sell_token sell_amount buy_token
      min_buy_amount target_price incentive expiry current_time c1 c2 c3 c4 c5,
      ?_, ?_, ?_, ?_, ?_⟩
    · rw [get_balance_add_user_intent, get_balance_set_intent,
        get_balance_next_id, get_balance_set_balance_self]
    · rw [get_balance_add_user_intent, get_balance_set_intent,
        get_balance_next_id, get_balance_set_balance_self]
    · rw [get_intent_add_user_intent, get_intent_set_intent_self]
    · rw [get_user_intents_add_self]
      rfl
    · rfl

theorem C3_create_intent_witness :
    create_intent freshState 1 10 200 20 60 15000000 5 2000 500 =
      (.error .InsufficientBalance, freshState) ∧
    ∃ s', create_intent freshState 1 10 50 20 60 15000000 5 2000 500 =
        (.ok freshState.counter, s') ∧
      (get_balance s' 1 10).available =
        (get_balance freshState 1 10).available - (50 + 5) ∧
      (get_balance s' 1 10).locked =
        (get_balance freshState 1 10).locked + (50 + 5) ∧
      get_intent s' freshState.counter = some
        { id := freshState.counter, creator := 1, sell_token := 10
          sell_amount := 50, buy_token := 20, min_buy_amount := 60
          target_price := 15000000, incentive := 5, expiry := 2000
          status := .Active, executor := none, actual_buy_amount := none } ∧
      get_user_intents s' 1 = get_user_intents freshState 1 ++ [freshState.counter] ∧
      s'.counter = freshState.counter + 1 :=
  ⟨(C3_create_intent freshState 1 10 200 20 60 15000000 5 2000 500
      (by decide) (by decide) (by decide) (by decide) (by decide) (by decide)).1
      (by decide),
   (C3_create_intent freshState 1 10 50 20 60 15000000 5 2000 500
      (by decide) (by decide) (by decide) (by decide) (by decide) (by decide)).2
      (by decide)⟩

/-- C5: `cancel_intent` fails with `IntentNotFound` when the id is unknown,
with `OnlyCreatorCanCancel` when the caller is not the creator, and with
`IntentAlreadyExecuted` when the intent is no longer `Active`; on success it
moves exactly `sell_amount + incentive` from `locked` back to `available` in
the sell token, marks the intent `Cancelled`, and thereafter every further
`cancel_intent` or `execute_intent` on that intent fails. -/
theorem C5_cancel_intent (s : State) (intent_id : Nat) (creator : Addr) :
    (get_intent s intent_id = none →
      cancel_intent s intent_id creator = (.error .IntentNotFound, s)) ∧
    (∀ intent, get_intent s intent_id = some intent →
      intent.creator ≠ creator →
      cancel_intent s intent_id creator = (.error .OnlyCreatorCanCancel, s)) ∧
    (∀ intent, get_intent s intent_id = some intent →
      intent.creator = creator → intent.status ≠ IntentStatus.Active →
      cancel_intent s intent_id creator = (.error .IntentAlreadyExecuted, s)) ∧
    (∀ intent, get_intent s intent_id = some intent →
      intent.creator = creator → intent.status = IntentStatus.Active →
      ∃ s', cancel_intent s intent_id creator = (.ok (), s') ∧
        (get_balance s' creator intent.sell_token).locked =
          (get_balance s creator intent.sell_token).locked -
            (intent.sell_amount + intent.incentive) ∧
        (get_balance s' creator intent.sell_token).available =
          (get_balance s creator intent.sell_token).available +
            (intent.sell_amount + intent.incentive) ∧
        get_intent s' intent_id =
          some { intent with status := IntentStatus.Cancelled } ∧
        (∀ creator2, ∃ e, (cancel_intent s' intent_id creator2).1 = .error e) ∧
        (∀ executor (buy_amount : Int) (t2 : Nat),
          (execute_intent s' intent_id executor buy_amount t2).1 =
            .error .IntentAlreadyExecuted)) := by
  refine ⟨?_, ?_, ?_, ?_⟩
  · intro hget
    simp only [cancel_intent, hget]
  · intro intent hget h1
    simp only [cancel_intent, hget, if_pos h1]
  · intro intent hget hc h2
    have h1 : ¬ intent.creator ≠ creator := by simp [hc]
    simp only [cancel_intent, hget, if_neg h1, if_pos h2]
  · intro intent hget hc hact
    refine ⟨_, cancel_intent_ok s intent_id creator intent hget hc hact,
      ?_, ?_, ?_, ?_, ?_⟩
    · rw [get_balance_set_intent, get_balance_set_balance_self]
    · rw [get_balance_set_intent, get_balance_set_balance_self]
    · rw [get_intent_set_intent_self]
    · exact (terminal_intent_blocks _ intent_id _
        (by rw [get_intent_set_intent_self]) (by simp)).1
    · exact (terminal_intent_blocks _ intent_id _
        (by rw [get_intent_set_intent_self]) (by simp)).2

theorem C5_cancel_intent_witness :
    cancel_intent exState 5 1 = (.error .IntentNotFound, exState) ∧
    cancel_intent exState 0 3 = (.error .OnlyCreatorCanCancel, exState) ∧
    (∃ s', cancel_intent exState 0 1 = (.ok (), s') ∧
      (get_balance s' 1 exIntent.sell_token).locked =
        (get_balance exState 1 exIntent.sell_token).locked -
          (exIntent.sell_amount + exIntent.incentive) ∧
      (get_balance s' 1 exIntent.sell_token).available =
        (get_balance exState 1 exIntent.sell_token).available +
          (exIntent.sell_amount + exIntent.incentive) ∧
      get_intent s' 0 = some { exIntent with status := IntentStatus.Cancelled } ∧
      (∀ creator2, ∃ e, (cancel_intent s' 0 creator2).1 = .error e) ∧
      (∀ executor (buy_amount : Int) (t2 : Nat),
        (execute_intent s' 0 executor buy_amount t2).1 =
          .error .IntentAlreadyExecuted)) :=
  ⟨(C5_cancel_intent exState 5 1).1 rfl,
   (C5_cancel_intent exState 0 3).2.1 exIntent rfl (by decide),
   (C5_cancel_intent exState 0 1).2.2.2 exIntent rfl rfl rfl⟩

/-- C4: for an `Active`, unexpired intent and a `buy_amount` meeting
`min_buy_amount`, `execute_intent` fails with `PriceConditionNotMet` if and
only if `floor(buy_amount * PRICE_SCALE / sell_amount) < target_price`
(the source's truncating i128 division agrees with floor here because both
operands are positive), and the failure happens before any transfer or state
mutation. -/
theorem C4_price_condition (s : State) (intent_id : Nat) (intent : Intent)
    (executor : Addr) (buy_amount : Int) (current_time : Nat)
    (hget : get_intent s intent_id = some intent)
    (hact : intent.status = IntentStatus.Active)
    (hexp : current_time ≤ intent.expiry)
    (hsell : 0 < intent.sell_amount)
    (hmin : 0 < intent.min_buy_amount)
    (hbuy : intent.min_buy_amount ≤ buy_amount) :
    ((execute_intent s intent_id executor buy_amount current_time).1 =
        .error .PriceConditionNotMet ↔
      (buy_amount * PRICE_SCALE).fdiv intent.sell_amount < intent.target_price) ∧
    ((buy_amount * PRICE_SCALE).fdiv intent.sell_amount < intent.target_price →
      (execute_intent s intent_id executor buy_amount current_time).2 = s) := by
  have h1 : ¬ intent.status ≠ IntentStatus.Active := by simp [hact]
  have h2 : ¬ intent.expiry < current_time := not_lt.mpr hexp
  have h3 : ¬ buy_amount < intent.min_buy_amount := not_lt.mpr hbuy
  have hb0 : (0 : Int) ≤ buy_amount * PRICE_SCALE :=
    mul_nonneg (le_of_lt (lt_of_lt_of_le hmin hbuy)) (by norm_num [PRICE_SCALE])
  have htd : (buy_amount * PRICE_SCALE).tdiv intent.sell_amount =
      (buy_amount * PRICE_SCALE).fdiv intent.sell_amount := by
    rw [Int.tdiv_eq_ediv hb0 (le_of_lt hsell), Int.fdiv_eq_ediv _ (le_of_lt hsell)]
  by_cases h4 : (buy_amount * PRICE_SCALE).fdiv intent.sell_amount <
      intent.target_price
  · have h4' : (buy_amount * PRICE_SCALE).tdiv intent.sell_amount <
        intent.target_price := by
      rw [htd]
      exact h4
    constructor
    · simp only [execute_intent, hget, if_neg h1, if_neg h2, if_neg h3, if_pos h4']
      simpa using h4
    · intro _
      simp only [execute_intent, hget, if_neg h1, if_neg h2, if_neg h3, if_pos h4']
  · have h4' : ¬ (buy_amount * PRICE_SCALE).tdiv intent.sell_amount <
        intent.target_price := by
      rw [htd]
      exact h4
    constructor
    · rw [execute_intent_ok s intent_id executor buy_amount current_time intent
        hget hact h2 h3 h4']
      simp [h4]
    · intro hcontra
      exact absurd hcontra h4

theorem C4_price_condition_witness :
    ((execute_intent c4State 0 2 140 500).1 = .error .PriceConditionNotMet ↔
      ((140 : Int) * PRICE_SCALE).fdiv c4Intent.sell_amount <
        c4Intent.target_price) ∧
    (((140 : Int) * PRICE_SCALE).fdiv c4Intent.sell_amount <
        c4Intent.target_price →
      (execute_intent c4State 0 2 140 500).2 = c4State) :=
  C4_price_condition c4State 0 c4Intent 2 140 500 rfl rfl (by decide)
    (by decide) (by decide) (by decide)

/-- C2: executing an `Active`, unexpired intent with a `buy_amount` that
meets `min_buy_amount` and whose floored scaled price meets `target_price`
succeeds and has exactly these effects: the creator's locked sell-token
balance drops by `sell_amount + incentive`; `buy_amount` of the buy token
moves from the executor to the creator; `sell_amount + incentive` of the
sell token moves from the contract to the executor; the intent is recorded
as `Executed` with the executor and `actual_buy_amount = buy_amount`; and
any second `execute_intent` on the same intent fails with
`IntentAlreadyExecuted`.  The pairwise-distinctness hypotheses make the
per-account net balance changes coincide with the three transfers the code
performs. -/
theorem C2_execute_effects (s : State) (intent_id : Nat) (intent : Intent)
    (executor : Addr) (buy_amount : Int) (current_time : Nat)
    (hget : get_intent s intent_id = some intent)
    (hact : intent.status = IntentStatus.Active)
    (hexp : current_time ≤ intent.expiry)
    (hsell : 0 < intent.sell_amount)
    (hmin : 0 < intent.min_buy_amount)
    (hbuy : intent.min_buy_amount ≤ buy_amount)
    (hprice : intent.target_price ≤
      (buy_amount * PRICE_SCALE).fdiv intent.sell_amount)
    (hne1 : executor ≠ intent.creator)
    (hne2 : executor ≠ contractAddr)
    (hnet : intent.buy_token ≠ intent.sell_token) :
    ∃ s', execute_intent s intent_id executor buy_amount current_time =
        (.ok (), s') ∧
      (get_balance s' intent.creator intent.sell_token).locked =
        (get_balance s intent.creator intent.sell_token).locked -
          (intent.sell_amount + intent.incentive) ∧
      tokBal s' intent.buy_token intent.creator =
        tokBal s intent.buy_token intent.creator + buy_amount ∧
      tokBal s' intent.buy_token executor =
        tokBal s intent.buy_token executor - buy_amount ∧
      tokBal s' intent.sell_token executor =
        tokBal s intent.sell_token executor +
          (intent.sell_amount + intent.incentive) ∧
      tokBal s' intent.sell_token contractAddr =
        tokBal s intent.sell_token contractAddr -
          (intent.sell_amount + intent.incentive) ∧
      get_intent s' intent_id = some
        { intent with status := IntentStatus.Executed, executor := some executor
                      actual_buy_amount := some buy_amount } ∧
      (∀ executor2 (buy_amount2 : Int) (t2 : Nat),
        (execute_intent s' intent_id executor2 buy_amount2 t2).1 =
          .error .IntentAlreadyExecuted) := by
  have h2 : ¬ intent.expiry < current_time := not_lt.mpr hexp
  have h3 : ¬ buy_amount < intent.min_buy_amount := not_lt.mpr hbuy
  have hb0 : (0 : Int) ≤ buy_amount * PRICE_SCALE :=
    mul_nonneg (le_of_lt (lt_of_lt_of_le hmin hbuy)) (by norm_num [PRICE_SCALE])
  have h4 : ¬ (buy_amount * PRICE_SCALE).tdiv intent.sell_amount <
      intent.target_price := by
    rw [Int.tdiv_eq_ediv hb0 (le_of_lt hsell), ← Int.fdiv_eq_ediv _ (le_of_lt hsell)]
    exact not_lt.mpr hprice
  have hca : (intent.buy_token, intent.creator) ≠
      (intent.sell_token, contractAddr) := by simp [hnet]
  have hcb : (intent.buy_token, intent.creator) ≠
      (intent.sell_token, executor) := by simp [hnet]
  have hea : (intent.buy_token, executor) ≠
      (intent.sell_token, contractAddr) := by simp [hnet]
  have heb : (intent.buy_token, executor) ≠
      (intent.sell_token, executor) := by simp [hnet]
  have hsc : ((intent.sell_token, executor) : Addr × Addr) ≠
      (intent.buy_token, executor) := by simp [Ne.symm hnet]
  have hsd : ((intent.sell_token, executor) : Addr × Addr) ≠
      (intent.buy_token, intent.creator) := by simp [Ne.symm hnet]
  have hse : ((intent.sell_token, contractAddr) : Addr × Addr) ≠
      (intent.buy_token, executor) := by simp [Ne.symm hnet]
  have hsf : ((intent.sell_token, contractAddr) : Addr × Addr) ≠
      (intent.buy_token, intent.creator) := by simp [Ne.symm hnet]
  have hcne : intent.creator ≠ executor := Ne.symm hne1
  refine ⟨_, execute_intent_ok s intent_id executor buy_amount current_time intent
    hget hact h2 h3 h4, ?_, ?_, ?_, ?_, ?_, ?_, ?_⟩
  · rw [get_balance_set_intent, get_balance_set_balance_self]
  · rw [tokBal_set_intent, tokBal_set_balance,
      tokBal_transfer_other _ _ _ _ _ hca hcb,
      tokBal_transfer_to _ _ _ _ _ hcne,
      tokBal_transfer_other _ _ _ _ _ hca hcb]
  · rw [tokBal_set_intent, tokBal_set_balance,
      tokBal_transfer_other _ _ _ _ _ hea heb,
      tokBal_transfer_from _ _ _ _ _ hcne,
      tokBal_transfer_other _ _ _ _ _ hea heb]
  · rw [tokBal_set_intent, tokBal_set_balance,
      tokBal_transfer_to _ _ _ _ _ hne2,
      tokBal_transfer_other _ _ _ _ _ hsc hsd,
      tokBal_transfer_to _ _ _ _ _ hne2]
    ring
  · rw [tokBal_set_intent, tokBal_set_balance,
      tokBal_transfer_from _ _ _ _ _ hne2,
      tokBal_transfer_other _ _ _ _ _ hse hsf,
      tokBal_transfer_from _ _ _ _ _ hne2]
    ring
  · rw [get_intent_set_intent_self]
  · exact (terminal_intent_blocks _ intent_id _
      (by rw [get_intent_set_intent_self]) (by simp)).2

theorem C2_execute_effects_witness :
    ∃ s', execute_intent exState 0 2 160 500 = (.ok (), s') ∧
      (get_balance s' exIntent.creator exIntent.sell_token).locked =
        (get_balance exState exIntent.creator exIntent.sell_token).locked -
          (exIntent.sell_amount + exIntent.incentive) ∧
      tokBal s' exIntent.buy_token exIntent.creator =
        tokBal exState exIntent.buy_token exIntent.creator + 160 ∧
      tokBal s' exIntent.buy_token 2 =
        tokBal exState exIntent.buy_token 2 - 160 ∧
      tokBal s' exIntent.sell_token 2 =
        tokBal exState exIntent.sell_token 2 +
          (exIntent.sell_amount + exIntent.incentive) ∧
      tokBal s' exIntent.sell_token contractAddr =
        tokBal exState exIntent.sell_token contractAddr -
          (exIntent.sell_amount + exIntent.incentive) ∧
      get_intent s' 0 = some
        { exIntent with status := IntentStatus.Executed, executor := some 2
                        actual_buy_amount := some 160 } ∧
      (∀ executor2 (buy_amount2 : Int) (t2 : Nat),
        (execute_intent s' 0 executor2 buy_amount2 t2).1 =
          .error .IntentAlreadyExecuted) :=
  C2_execute_effects exState 0 exIntent 2 160 500 rfl rfl (by decide)
    (by decide) (by decide) (by decide) (by decide) (by decide) (by decide)
    (by decide)

/-- C10: a successful `execute_intent` changes only the creator's Balance
record for the sell token (and only its `locked` field) and the executed
Intent record; every other Balance record, every other intent, the counter,
the user intent indexes and the admin are untouched — in particular the
executor's vault balances are unchanged for every token (the executor is
paid by external token transfer, never credited in escrow). -/
theorem C10_execute_frame (s : State) (intent_id : Nat) (intent : Intent)
    (executor : Addr) (buy_amount : Int) (current_time : Nat) (s' : State)
    (hget : get_intent s intent_id = some intent)
    (hok : execute_intent s intent_id executor buy_amount current_time =
      (.ok (), s')) :
    (∀ user token, (user, token) ≠ (intent.creator, intent.sell_token) →
      lookupKey (user, token) s'.balances = lookupKey (user, token) s.balances) ∧
    (get_balance s' intent.creator intent.sell_token).available =
      (get_balance s intent.creator intent.sell_token).available ∧
    (∀ token, executor ≠ intent.creator →
      lookupKey (executor, token) s'.balances =
        lookupKey (executor, token) s.balances) ∧
    (∀ id2, id2 ≠ intent_id →
      lookupKey id2 s'.intents = lookupKey id2 s.intents) ∧
    s'.counter = s.counter ∧
    s'.userIntents = s.userIntents ∧
    s'.admin = s.admin := by
  by_cases h1 : intent.status ≠ IntentStatus.Active
  · simp [execute_intent, hget, if_pos h1] at hok
  by_cases h2 : intent.expiry < current_time
  · simp [execute_intent, hget, if_neg h1, if_pos h2] at hok
  by_cases h3 : buy_amount < intent.min_buy_amount
  · simp [execute_intent, hget, if_neg h1, if_neg h2, if_pos h3] at hok
  by_cases h4 : (buy_amount * PRICE_SCALE).tdiv intent.sell_amount <
      intent.target_price
  · simp [execute_intent, hget, if_neg h1, if_neg h2, if_neg h3, if_pos h4] at hok
  rw [execute_intent_ok s intent_id executor buy_amount current_time intent hget
    (not_not.mp h1) h2 h3 h4] at hok
  have hx := congrArg Prod.snd hok
  simp only [] at hx
  subst hx
  refine ⟨?_, ?_, ?_, ?_, rfl, rfl, rfl⟩
  · intro user token hk
    rw [balances_set_intent, balances_set_balance, balances_transfer,
      balances_transfer, balances_transfer]
    exact lookupKey_setKey_ne _ _ hk
  · rw [get_balance_set_intent, get_balance_set_balance_self]
  · intro token hx2
    have hk : ((executor, token) : Addr × Addr) ≠
        (intent.creator, intent.sell_token) := by simp [hx2]
    rw [balances_set_intent, balances_set_balance, balances_transfer,
      balances_transfer, balances_transfer]
    exact lookupKey_setKey_ne _ _ hk
  · intro id2 hid2
    rw [intents_set_intent, intents_set_balance, intents_transfer,
      intents_transfer, intents_transfer]
    exact lookupKey_setKey_ne _ _ hid2

theorem C10_execute_frame_witness :
    (∀ user token,
      (user, token) ≠ (exIntent.creator, exIntent.sell_token) →
      lookupKey (user, token) ((execute_intent exState 0 2 160 500).2).balances =
        lookupKey (user, token) exState.balances) ∧
    (get_balance (execute_intent exState 0 2 160 500).2
        exIntent.creator exIntent.sell_token).available =
      (get_balance exState exIntent.creator exIntent.sell_token).available ∧
    (∀ token, (2 : Addr) ≠ exIntent.creator →
      lookupKey ((2 : Addr), token)
          ((execute_intent exState 0 2 160 500).2).balances =
        lookupKey ((2 : Addr), token) exState.balances) ∧
    (∀ id2, id2 ≠ 0 →
      lookupKey id2 ((execute_intent exState 0 2 160 500).2).intents =
        lookupKey id2 exState.intents) ∧
    ((execute_intent exState 0 2 160 500).2).counter = exState.counter ∧
    ((execute_intent exState 0 2 160 500).2).userIntents = exState.userIntents ∧
    ((execute_intent exState 0 2 160 500).2).admin = exState.admin :=
  C10_execute_frame exState 0 exIntent 2 160 500
    (execute_intent exState 0 2 160 500).2 rfl rfl

set_option maxRecDepth 8192

/-- C8 counterexample: `buy_amount = 2^123` is a representable `i128` value
that passes every validation of `execute_intent` on `ovState` (its stored
intent has `min_buy_amount = 1` and is `Active` and unexpired), yet
`buy_amount * PRICE_SCALE` exceeds the `i128` range, so the multiplication
at the price check aborts (`none`) instead of returning one of the
enumerated `Error` variants. -/
theorem C8_counterexample :
    inI128 (2 ^ 123) ∧
    ovIntent.min_buy_amount ≤ 2 ^ 123 ∧
    ¬ inI128 ((2 ^ 123) * PRICE_SCALE) ∧
    execute_intent_i128 ovState 0 2 (2 ^ 123) 0 = none := by
  refine ⟨by decide, by decide, by decide, rfl⟩

/-- C8 amended: every failure of `deposit` and `execute_intent` is one of
the enumerated `Error` variants provided the i128 arithmetic stays in
range — `available + amount` for deposit, and for execute a nonzero
`sell_amount` together with in-range `buy_amount * PRICE_SCALE`, its
quotient by `sell_amount`, `sell_amount + incentive` and
`locked - (sell_amount + incentive)`; without these bounds the arithmetic
can abort outside the enumeration, as the counterexample shows. -/
theorem C8_enumerated_when_in_range (s : State) :
    (∀ token (amount : Int) from_,
      inI128 ((get_balance s from_ token).available + amount) →
      deposit_i128 s token amount from_ ≠ none) ∧
    (∀ intent_id executor (buy_amount : Int) (current_time : Nat),
      (∀ intent, get_intent s intent_id = some intent →
        intent.sell_amount ≠ 0 ∧
        inI128 (buy_amount * PRICE_SCALE) ∧
        inI128 ((buy_amount * PRICE_SCALE).tdiv intent.sell_amount) ∧
        inI128 (intent.sell_amount + intent.incentive) ∧
        inI128 ((get_balance s intent.creator intent.sell_token).locked -
          (intent.sell_amount + intent.incentive))) →
      execute_intent_i128 s intent_id executor buy_amount current_time ≠ none) := by
  constructor
  · intro token amount from_ hin
    by_cases h0 : amount ≤ 0
    · simp [deposit_i128, h0]
    · simp only [deposit_i128, if_neg h0]
      rw [get_balance_transfer]
      have hca : checkedAdd (get_balance s from_ token).available amount =
          some ((get_balance s from_ token).available + amount) := by
        unfold checkedAdd
        rw [if_pos hin]
      rw [hca]
      simp
  · intro intent_id executor buy_amount current_time hyp
    rcases hget : get_intent s intent_id with _ | intent
    · simp [execute_intent_i128, hget]
    obtain ⟨hz, hmul, hq, hadd, hsub⟩ := hyp intent hget
    by_cases h1 : intent.status ≠ IntentStatus.Active
    · simp [execute_intent_i128, hget, if_pos h1]
    by_cases h2 : intent.expiry < current_time
    · simp [execute_intent_i128, hget, if_neg h1, if_pos h2]
    by_cases h3 : buy_amount < intent.min_buy_amount
    · simp [execute_intent_i128, hget, if_neg h1, if_neg h2, if_pos h3]
    have hmul' : checkedMul buy_amount PRICE_SCALE =
        some (buy_amount * PRICE_SCALE) := by
      unfold checkedMul
      rw [if_pos hmul]
    have hadd' : checkedAdd intent.sell_amount intent.incentive =
        some (intent.sell_amount + intent.incentive) := by
      unfold checkedAdd
      rw [if_pos hadd]
    have hdiv' : checkedDiv (buy_amount * PRICE_SCALE) intent.sell_amount =
        some ((buy_amount * PRICE_SCALE).tdiv intent.sell_amount) := by
      unfold checkedDiv
      rw [if_neg hz, if_pos hq]
    simp only [execute_intent_i128, hget, if_neg h1, if_neg h2, if_neg h3,
      hmul', hdiv', hadd']
    by_cases h4 : (buy_amount * PRICE_SCALE).tdiv intent.sell_amount <
        intent.target_price
    · simp [if_pos h4]
    · simp only [if_neg h4]
      rw [get_balance_transfer, get_balance_transfer, get_balance_transfer]
      have hsub' : checkedSub
          (get_balance s intent.creator intent.sell_token).locked
          (intent.sell_amount + intent.incentive) =
          some ((get_balance s intent.creator intent.sell_token).locked -
            (intent.sell_amount + intent.incentive)) := by
        unfold checkedSub
        rw [if_pos hsub]
      rw [hsub']
      simp

theorem C8_enumerated_when_in_range_witness :
    deposit_i128 exState 5 100 7 ≠ none ∧
    execute_intent_i128 exState 0 2 160 500 ≠ none :=
  ⟨(C8_enumerated_when_in_range exState).1 5 100 7 (by decide),
   (C8_enumerated_when_in_range exState).2 0 2 160 500 (fun intent h => by
      have h' : exIntent = intent := by
        rw [show get_intent exState 0 = some exIntent from rfl] at h
        injection h
      subst h'
      exact ⟨by decide, by decide, by decide, by decide, by decide⟩)⟩
